import Mathlib

set_option autoImplicit false

/-!
Shallow embedding of the real-time voice-command pipeline of
`src/SpokyAI/ai/voice_recognition.py`:

* `VoiceCommandHandler` (the command router): `register_command` and
  `process_result`, with the Python `dict` modelled as an insertion-ordered
  association list (Python 3.7+ dicts preserve insertion order, and
  assignment to an existing key replaces the value in place);
* `VoiceRecognition._process_audio` (the streaming decode loop), with the
  external decoder's per-chunk behaviour abstracted as a tagged output;
* `VoiceRecognition.start_listening` / `stop_listening` / `cleanup`
  (the pipeline lifecycle), as a state-transition function on an explicit
  record of the observable fields;
* `VoiceRecognition.recognize_from_file`, with the decoder abstracted as a
  state machine and the wave container header made explicit.

Handlers are zero-argument callables in Python; here they are identified by
`Nat` tags, and "the handler fires" is modelled by the tag appearing in the
list of invocations a call produces.
-/

/-! ## String primitives (ASCII model of Python `str.lower` / `str.strip` / `in`) -/

/-- Python `s.lower()` (ASCII model): lowercase every character. -/
def pyLower (s : String) : String :=
  String.mk (s.toList.map Char.toLower)

/-- Python `s.strip()`: drop leading and trailing whitespace. -/
def pyStrip (s : String) : String :=
  String.mk ((((s.toList.dropWhile Char.isWhitespace).reverse).dropWhile
      Char.isWhitespace).reverse)

/-- The normalization `process_result` applies to recognized text:
`result.get('text', '').lower().strip()`. -/
def pyNormalize (s : String) : String :=
  pyStrip (pyLower s)

/-- Whether `needle` is an initial segment of `hay` (helper for Python `in`). -/
def beginsWith : List Char → List Char → Bool
  | [], _ => true
  | _ :: _, [] => false
  | c :: cs, d :: ds => c == d && beginsWith cs ds

/-- Whether `needle` occurs as a contiguous run inside `hay` (helper). -/
def occursInList (needle : List Char) : List Char → Bool
  | [] => beginsWith needle []
  | d :: ds => beginsWith needle (d :: ds) || occursInList needle ds

/-- Python `needle in hay` for strings: substring containment. -/
def occursIn (needle hay : String) : Bool :=
  occursInList needle.toList hay.toList

/-! ## The command registry (`VoiceCommandHandler.commands`, a Python dict) -/

/-- Python dict assignment `d[k] = v`: if `k` is already a key, replace its
value in place (keeping its position); otherwise append at the end. -/
def dictInsert (k : String) (v : Nat) : List (String × Nat) → List (String × Nat)
  | [] => [(k, v)]
  | (k', v') :: rest =>
      if k' = k then (k, v) :: rest else (k', v') :: dictInsert k v rest

/-- Python `d[k]` / `k in d`: value of the first (unique) entry with key `k`. -/
def dictLookup (k : String) : List (String × Nat) → Option Nat
  | [] => none
  | (k', v) :: rest => if k' = k then some v else dictLookup k rest

/-- `VoiceCommandHandler.register_command`: stores
`self.commands[command.lower()] = handler`.  Note: the source lowercases but
does NOT strip the phrase. -/
def register_command (command : String) (handler : Nat)
    (commands : List (String × Nat)) : List (String × Nat) :=
  dictInsert (pyLower command) handler commands

/-- Partial-match scan of `process_result`: first registered phrase that is a
substring of the text, in registration order. -/
def firstSubstrMatch (text : String) : List (String × Nat) → Option Nat
  | [] => none
  | (cmd, h) :: rest =>
      if occursIn cmd text then some h else firstSubstrMatch text rest

/-- `VoiceCommandHandler.process_result`, applied to the `text` field of the
recognition result (a missing field is the empty string, as with
`result.get('text', '')`).  Returns the list of handler invocations the call
performs, in order. -/
def process_result (commands : List (String × Nat)) (textField : String) :
    List Nat :=
  let text := pyNormalize textField
  if text = "" then []
  else
    match dictLookup text commands with
    | some h => [h]
    | none =>
        match firstSubstrMatch text commands with
        | some h => [h]
        | none => []

example : process_result (register_command "hello spoky" 0 []) "Hello Spoky" = [0] := by decide
example : process_result (register_command "goodbye spoky" 1
    (register_command "hello spoky" 0 [])) "well hello spoky there" = [0] := by decide
example : process_result [("status", 0), ("help", 1)] "banana" = [] := by decide
example : register_command " hello spoky " 0 [] = [(" hello spoky ", 0)] := by decide

/-! ## The streaming decode loop (`VoiceRecognition._process_audio`) -/

/-- The external decoder's reaction to one dequeued chunk in the decode loop:
either `AcceptWaveform` returned `true` and `Result()` carries `text`
(a Final result), or it returned `false` and `PartialResult()` carries an
in-progress hypothesis. -/
inductive DecoderOutput where
  | accepted (text : String)
  | declined (interim : String)
deriving DecidableEq

/-- Observable actions of one decode-loop iteration. -/
inductive LoopEvent where
  | loggedResult (text : String)
  | dispatched (text : String)
  | loggedInterim (text : String)
deriving DecidableEq

/-- One iteration of the `while self.is_listening` body of `_process_audio`
(with a callback installed): on an accepted chunk the Final result is logged
and, when its `text` is non-empty, handed to the callback; on a declined
chunk the interim hypothesis is logged (when non-empty) and nothing is
dispatched. -/
def processAudioStep (out : DecoderOutput) : List LoopEvent :=
  match out with
  | .accepted t => .loggedResult t :: (if t = "" then [] else [.dispatched t])
  | .declined s => if s = "" then [] else [.loggedInterim s]

/-- The decode loop over a finite trace of decoder reactions, in queue order. -/
def processAudio (outs : List DecoderOutput) : List LoopEvent :=
  (outs.map processAudioStep).flatten

/-! ## Pipeline lifecycle (`VoiceRecognition` start/stop/cleanup) -/

/-- Errors the pipeline records (spec taxonomy §7 mapped onto the logger
calls of the source). -/
inductive ErrKind where
  | configurationError
  | formatError
deriving DecidableEq

/-- The observable state of a `VoiceRecognition` object:
`hasRecognizer` — `self.recognizer is not None`;
`isListening` — `self.is_listening`;
`streamOpen` — `self.stream is not None`;
`streamsOpened` / `workersSpawned` — cumulative counts of capture streams
opened and decode workers spawned (to state double-start claims);
`audioAlive` — the PyAudio resource not yet terminated;
`errlog` — errors reported so far (most recent first). -/
structure VRState where
  hasRecognizer : Bool
  isListening : Bool
  streamOpen : Bool
  streamsOpened : Nat
  workersSpawned : Nat
  audioAlive : Bool
  errlog : List ErrKind
deriving DecidableEq

/-- How a `start_listening` call returns. `deviceFault` models
`self.audio.open(...)` raising: the exception propagates to the caller and
the assignments already performed are kept. -/
inductive StartOutcome where
  | configError
  | alreadyListening
  | deviceFault
  | started
deriving DecidableEq

/-- `VoiceRecognition.start_listening`, with the audio-device open modelled
by the `deviceOk` flag: the recognizer guard logs and returns; the
`is_listening` guard returns; otherwise `is_listening` is set `True` first,
then the stream is opened and the processing thread spawned. -/
def start_listening (deviceOk : Bool) (s : VRState) : VRState × StartOutcome :=
  if !s.hasRecognizer then
    ({ s with errlog := ErrKind.configurationError :: s.errlog }, .configError)
  else if s.isListening then
    (s, .alreadyListening)
  else
    let s1 := { s with isListening := true }
    if !deviceOk then
      (s1, .deviceFault)
    else
      ({ s1 with
          streamOpen := true,
          streamsOpened := s1.streamsOpened + 1,
          workersSpawned := s1.workersSpawned + 1 }, .started)

/-- `VoiceRecognition.stop_listening`: no-op unless listening; otherwise
clears the flag and, if a stream is open, stops and closes it. -/
def stop_listening (s : VRState) : VRState :=
  if !s.isListening then s
  else
    let s1 := { s with isListening := false }
    if s1.streamOpen then { s1 with streamOpen := false } else s1

/-- `VoiceRecognition.cleanup`: `stop_listening()` then
`self.audio.terminate()` (releases the device resource). -/
def cleanup (s : VRState) : VRState :=
  let s1 := stop_listening s
  { s1 with audioAlive := false }

/-- A freshly constructed `VoiceRecognition` object (recognizer present or
not according to `hasRec`). -/
def initState (hasRec : Bool) : VRState :=
  { hasRecognizer := hasRec
    isListening := false
    streamOpen := false
    streamsOpened := 0
    workersSpawned := 0
    audioAlive := true
    errlog := [] }

/-! ## File recognition (`VoiceRecognition.recognize_from_file`) -/

/-- The external decoder as an opaque state machine over state type `σ`:
`accept` is `AcceptWaveform(data)` (returns whether a Final result is
available, mutating the state), `result` is `Result()` and `finalResult` is
`FinalResult()`, each yielding the `text` field. -/
structure DecoderModel (σ : Type) where
  accept : σ → List Nat → Bool × σ
  result : σ → String × σ
  finalResult : σ → String × σ

/-- A wave container as seen through the `wave` module: header fields plus
the sequence of frames (each frame abstracted as a `Nat`). -/
structure WaveFile where
  nchannels : Nat
  sampwidth : Nat
  framerate : Nat
  frames : List Nat
deriving DecidableEq

/-- The `wf.readframes(buffer_size)` read loop: split the frame sequence
into successive chunks of `n` frames (the final chunk may be shorter; a
chunk size of `0` still advances by one frame, matching no real
configuration but keeping the function total). -/
def chunkify (n : Nat) : List Nat → List (List Nat)
  | [] => []
  | f :: fs => (f :: fs.take (n - 1)) :: chunkify n (fs.drop (n - 1))
termination_by l => l.length
decreasing_by simp [List.length_drop]; omega

/-- Python `" ".join(results)`. -/
def joinSpace : List String → String
  | [] => ""
  | [t] => t
  | t :: u :: ts => t ++ " " ++ joinSpace (u :: ts)

/-- The chunk loop of `recognize_from_file`: feed each chunk to the decoder;
when `AcceptWaveform` returns true, fetch `Result()` and append its text to
the accumulator when non-empty. -/
def fileLoop {σ : Type} (dm : DecoderModel σ) :
    List (List Nat) → σ → List String → List String × σ
  | [], st, acc => (acc, st)
  | c :: cs, st, acc =>
      match dm.accept st c with
      | (true, st1) =>
          let (t, st2) := dm.result st1
          fileLoop dm cs st2 (if t = "" then acc else acc ++ [t])
      | (false, st1) => fileLoop dm cs st1 acc

/-- `VoiceRecognition.recognize_from_file` on an already-opened container
`wf`, starting from decoder state `st`: returns the recognized text together
with the error recorded, if any.  The format guard checks mono, 16-bit
(`sampwidth = 2` bytes) and the configured sample rate; on mismatch it logs
and returns the empty string.  At end of stream `FinalResult()` is appended
when non-empty and the pieces are space-joined. -/
def recognize_from_file {σ : Type} (dm : DecoderModel σ)
    (sample_rate buffer_size : Nat) (hasRecognizer : Bool) (wf : WaveFile)
    (st : σ) : String × Option ErrKind :=
  if !hasRecognizer then ("", none)
  else if wf.nchannels ≠ 1 ∨ wf.sampwidth ≠ 2 ∨ wf.framerate ≠ sample_rate then
    ("", some ErrKind.formatError)
  else
    let (results, st1) := fileLoop dm (chunkify buffer_size wf.frames) st []
    let (ft, _) := dm.finalResult st1
    (joinSpace (if ft = "" then results else results ++ [ft]), none)

/-- Spec-level collection of the Final texts produced while streaming the
chunks: the texts of `Result()` at each accepted chunk, in order, skipping
empty ones (refinement target for the accumulator loop). -/
def finalTexts {σ : Type} (dm : DecoderModel σ) :
    List (List Nat) → σ → List String × σ
  | [], st => ([], st)
  | c :: cs, st =>
      match dm.accept st c with
      | (true, st1) =>
          let (t, st2) := dm.result st1
          let (ts, st3) := finalTexts dm cs st2
          ((if t = "" then ts else t :: ts), st3)
      | (false, st1) => finalTexts dm cs st1

/-- A concrete decoder instance used to exercise the definitions: the state
counts frames seen; every chunk whose last frame is even is accepted with a
text derived from the count. -/
def demoDecoder : DecoderModel Nat :=
  { accept := fun st c => (decide (c.getLastD 0 % 2 = 0), st + c.length)
    result := fun st => (if st % 4 = 0 then "" else "seg" ++ toString st, st)
    finalResult := fun st => ("tail" ++ toString st, st) }

/-- A concrete valid demo container. -/
def demoFile : WaveFile :=
  { nchannels := 1, sampwidth := 2, framerate := 16000
    frames := [3, 2, 5, 4, 7, 6, 9] }

/-! ## Lemmas about the command router -/

/-- The partial-match scan picks the first entry, in list order, whose
phrase occurs in the text. -/
theorem firstSubstrMatch_append (text : String) (pre : List (String × Nat))
    (cmd : String) (hdl : Nat) (post : List (String × Nat))
    (hpre : ∀ p ∈ pre, occursIn p.1 text = false)
    (hcmd : occursIn cmd text = true) :
    firstSubstrMatch text (pre ++ (cmd, hdl) :: post) = some hdl := by
  induction pre with
  | nil => simp [firstSubstrMatch, hcmd]
  | cons p ps ih =>
      have hp : occursIn p.1 text = false := hpre p (List.mem_cons_self p ps)
      have hrest := ih fun q hq => hpre q (List.mem_cons_of_mem p hq)
      obtain ⟨k, v⟩ := p
      simpa [firstSubstrMatch, hp] using hrest

/-- Claim C1: for every dispatch of recognized text, `process_result` first
normalizes the text; if the normalized text is empty no handler fires; if it
exactly equals a registered phrase that phrase's handler is the only
invocation (partial matches are not tried); otherwise the handler of the
first registered phrase, in registration order, that is a substring of the
text is the only invocation; and in all cases at most one handler fires. -/
theorem C1_router_dispatch (commands : List (String × Nat))
    (textField : String) :
    (process_result commands textField).length ≤ 1
    ∧ (pyNormalize textField = "" → process_result commands textField = [])
    ∧ (∀ hdl, pyNormalize textField ≠ "" →
        dictLookup (pyNormalize textField) commands = some hdl →
        process_result commands textField = [hdl])
    ∧ (∀ pre cmd hdl post, pyNormalize textField ≠ "" →
        dictLookup (pyNormalize textField) commands = none →
        commands = pre ++ (cmd, hdl) :: post →
        (∀ p ∈ pre, occursIn p.1 (pyNormalize textField) = false) →
        occursIn cmd (pyNormalize textField) = true →
        process_result commands textField = [hdl]) := by
  refine ⟨?_, ?_, ?_, ?_⟩
  · simp only [process_result]
    split
    · simp
    · split
      · simp
      · split <;> simp
  · intro hempty
    simp [process_result, hempty]
  · intro hdl hne hlook
    simp [process_result, hne, hlook]
  · intro pre cmd hdl post hne hlook hcomm hpre hcmd
    subst hcomm
    simp [process_result, hne, hlook,
      firstSubstrMatch_append (pyNormalize textField) pre cmd hdl post hpre hcmd]

/-- Witness for C1: the spec's tie-break scenario — registering
`"hello spoky"` then `"goodbye spoky"` and dispatching
`"well hello spoky there"` invokes exactly the first handler. -/
theorem C1_router_dispatch_witness :
    process_result (register_command "goodbye spoky" 1
      (register_command "hello spoky" 0 [])) "well hello spoky there" = [0] :=
  (C1_router_dispatch (register_command "goodbye spoky" 1
      (register_command "hello spoky" 0 [])) "well hello spoky there").2.2.2
    [] "hello spoky" 0 [("goodbye spoky", 1)] (by decide) (by decide)
    (by decide) (by simp) (by decide)

/-- Counterexample to claim C2: `register_command` lowercases but does not
trim, so a phrase registered with surrounding whitespace is stored untrimmed
and dispatching its trimmed form fires no handler. -/
theorem C2_counterexample :
    register_command " hello spoky " 0 [] ≠ [("hello spoky", 0)]
    ∧ process_result (register_command " hello spoky " 0 [])
        "hello spoky" = [] := by
  exact ⟨by decide, by decide⟩

/-- Claim C2 (amended): `register_command` stores the phrase normalized by
lowercasing only (surrounding whitespace is kept), so dispatching recognized
text whose normalized form equals or contains the stored lowercased phrase —
in particular a phrase registered with different letter case — invokes the
registered handler. -/
theorem C2_lowercase_registration (command textField : String) (hdl : Nat)
    (hne : pyNormalize textField ≠ "")
    (hmatch : pyNormalize textField = pyLower command
      ∨ occursIn (pyLower command) (pyNormalize textField) = true) :
    register_command command hdl [] = [(pyLower command, hdl)]
    ∧ process_result (register_command command hdl []) textField = [hdl] := by
  refine ⟨rfl, ?_⟩
  by_cases hk : pyLower command = pyNormalize textField
  · have hlook : dictLookup (pyNormalize textField)
        [(pyLower command, hdl)] = some hdl := by
      simp [dictLookup, hk]
    simp [process_result, register_command, dictInsert, hne, hlook]
  · have hocc : occursIn (pyLower command) (pyNormalize textField) = true := by
      rcases hmatch with heq | hocc
      · exact absurd heq.symm hk
      · exact hocc
    have hlook : dictLookup (pyNormalize textField)
        [(pyLower command, hdl)] = none := by
      simp [dictLookup, hk]
    simp [process_result, register_command, dictInsert, hne, hlook,
      firstSubstrMatch, hocc]

/-- Witness for C2 (amended): registering `"Hello Spoky"` and dispatching
`"hello spoky"` fires the handler via the equality route, and registering
the whitespace-padded `" hello spoky "` and dispatching
`"well hello spoky there"` fires the handler via the containment route. -/
theorem C2_lowercase_registration_witness :
    process_result (register_command "Hello Spoky" 0 []) "hello spoky" = [0]
    ∧ process_result (register_command " hello spoky " 1 [])
        "well hello spoky there" = [1] :=
  ⟨(C2_lowercase_registration "Hello Spoky" "hello spoky" 0 (by decide)
      (Or.inl (by decide))).2,
   (C2_lowercase_registration " hello spoky " "well hello spoky there" 1
      (by decide) (Or.inr (by decide))).2⟩

/-- Claim C9: re-registering a phrase whose normalized form is already a key
replaces its handler in place and keeps its original position, so after
registering `p`, then `q`, then `p` again, partial matching still considers
`p` before `q` and invokes `p`'s new handler. -/
theorem C9_reregister_in_place (p q textField : String) (h1 h2 h3 : Nat)
    (hpq : pyLower p ≠ pyLower q) :
    register_command p h3 (register_command q h2 (register_command p h1 []))
      = [(pyLower p, h3), (pyLower q, h2)]
    ∧ (pyNormalize textField ≠ "" →
        dictLookup (pyNormalize textField)
          [(pyLower p, h3), (pyLower q, h2)] = none →
        occursIn (pyLower p) (pyNormalize textField) = true →
        process_result
          (register_command p h3
            (register_command q h2 (register_command p h1 [])))
          textField = [h3]) := by
  have hreg : register_command p h3
      (register_command q h2 (register_command p h1 []))
      = [(pyLower p, h3), (pyLower q, h2)] := by
    simp [register_command, dictInsert, hpq]
  refine ⟨hreg, ?_⟩
  intro hne hlook hocc
  rw [hreg]
  simp [process_result, hne, hlook, firstSubstrMatch, hocc]

/-- Witness for C9: after registering `"hello spoky"`, `"goodbye spoky"`,
then `"hello spoky"` again with handler `2`, dispatching a text containing
both phrases invokes only handler `2`. -/
theorem C9_reregister_in_place_witness :
    register_command "hello spoky" 2 (register_command "goodbye spoky" 1
      (register_command "hello spoky" 0 []))
      = [(pyLower "hello spoky", 2), (pyLower "goodbye spoky", 1)]
    ∧ process_result (register_command "hello spoky" 2
        (register_command "goodbye spoky" 1
          (register_command "hello spoky" 0 [])))
        "well hello spoky and goodbye spoky" = [2] := by
  have h := C9_reregister_in_place "hello spoky" "goodbye spoky"
    "well hello spoky and goodbye spoky" 0 1 2 (by decide)
  exact ⟨h.1, h.2 (by decide) (by decide) (by decide)⟩



/-! ## Lemmas about the decode loop -/

/-- `processAudio` distributes over the head of the trace. -/
theorem processAudio_cons (o : DecoderOutput) (os : List DecoderOutput) :
    processAudio (o :: os) = processAudioStep o ++ processAudio os := rfl

/-- A dispatch event in one loop iteration can only come from an accepted
chunk with non-empty Final text. -/
theorem dispatched_mem_step (o : DecoderOutput) (t : String) :
    LoopEvent.dispatched t ∈ processAudioStep o →
    o = DecoderOutput.accepted t ∧ t ≠ "" := by
  cases o with
  | accepted u =>
      intro h
      by_cases hu : u = ""
      · simp [processAudioStep, hu] at h
      · simp [processAudioStep, hu] at h
        subst h
        exact ⟨rfl, hu⟩
  | declined s =>
      intro h
      by_cases hs : s = ""
      · simp [processAudioStep, hs] at h
      · simp [processAudioStep, hs] at h

/-- A dispatch event anywhere in the loop trace comes from an accepted chunk
with non-empty Final text. -/
theorem dispatched_mem_processAudio (outs : List DecoderOutput) (t : String) :
    LoopEvent.dispatched t ∈ processAudio outs →
    DecoderOutput.accepted t ∈ outs ∧ t ≠ "" := by
  induction outs with
  | nil => intro h; simp [processAudio] at h
  | cons o os ih =>
      intro h
      rcases List.mem_append.1 (by rwa [processAudio_cons] at h) with h' | h'
      · obtain ⟨ho, hne⟩ := dispatched_mem_step o t h'
        subst ho
        exact ⟨List.mem_cons_self _ _, hne⟩
      · exact ⟨List.mem_cons_of_mem _ (ih h').1, (ih h').2⟩

/-- Claim C3: in the streaming decode loop a declined chunk (a Partial
result) never causes a handler dispatch, and every dispatched text comes
from an accepted chunk (a Final result) whose text field is non-empty. -/
theorem C3_only_final_dispatched (outs : List DecoderOutput) :
    (∀ s t, LoopEvent.dispatched t ∉ processAudioStep (DecoderOutput.declined s))
    ∧ ∀ t, LoopEvent.dispatched t ∈ processAudio outs →
        DecoderOutput.accepted t ∈ outs ∧ t ≠ "" := by
  constructor
  · intro s t h
    have hcontra := (dispatched_mem_step _ t h).1
    simp at hcontra
  · intro t h
    exact dispatched_mem_processAudio outs t h

/-- Witness for C3: on a trace with one accepted chunk, the dispatch of
`"hello"` indeed traces back to that accepted Final result. -/
theorem C3_only_final_dispatched_witness :
    DecoderOutput.accepted "hello"
      ∈ [DecoderOutput.declined "he", DecoderOutput.accepted "hello"]
    ∧ "hello" ≠ "" :=
  (C3_only_final_dispatched
      [DecoderOutput.declined "he", DecoderOutput.accepted "hello"]).2
    "hello" (by decide)

/-! ## Lemmas about the pipeline lifecycle -/

/-- After `stop_listening` the object is never in the listening state. -/
theorem stop_listening_not_listening (s : VRState) :
    (stop_listening s).isListening = false := by
  obtain ⟨hr, il, so, ns, nw, aa, lg⟩ := s
  cases il <;> cases so <;> rfl

/-- `stop_listening` in the idle state changes nothing. -/
theorem stop_listening_idle (s : VRState) (hidle : s.isListening = false) :
    stop_listening s = s := by
  obtain ⟨hr, il, so, ns, nw, aa, lg⟩ := s
  cases il
  · rfl
  · simp at hidle

/-- Claim C4: calling `start_listening` with no recognizer available reports
a `ConfigurationError`, leaves the pipeline idle — not listening, no stream
opened, no worker spawned — and returns normally rather than raising. -/
theorem C4_start_without_recognizer (deviceOk : Bool) (s : VRState)
    (hrec : s.hasRecognizer = false) (hidle : s.isListening = false) :
    (start_listening deviceOk s).2 = StartOutcome.configError
    ∧ (start_listening deviceOk s).1.isListening = false
    ∧ (start_listening deviceOk s).1.streamOpen = s.streamOpen
    ∧ (start_listening deviceOk s).1.streamsOpened = s.streamsOpened
    ∧ (start_listening deviceOk s).1.workersSpawned = s.workersSpawned
    ∧ ErrKind.configurationError ∈ (start_listening deviceOk s).1.errlog := by
  simp [start_listening, hrec, hidle]

/-- Witness for C4: a freshly constructed object without a recognizer. -/
theorem C4_start_without_recognizer_witness :
    (initState false).hasRecognizer = false
    ∧ (start_listening true (initState false)).2 = StartOutcome.configError :=
  ⟨rfl, (C4_start_without_recognizer true (initState false) rfl rfl).1⟩

/-- Claim C7: `stop_listening` in the idle state is a no-op leaving all
state unchanged, and `cleanup` is idempotent — a second call produces the
same observable end state as the first (both are total functions of the
state, so neither raises). -/
theorem C7_stop_cleanup_idempotent :
    (∀ s : VRState, s.isListening = false → stop_listening s = s)
    ∧ ∀ s : VRState, cleanup (cleanup s) = cleanup s := by
  constructor
  · exact stop_listening_idle
  · intro s
    obtain ⟨hr, il, so, ns, nw, aa, lg⟩ := s
    cases il <;> cases so <;> rfl

/-- Witness for C7: a fresh idle object. -/
theorem C7_stop_cleanup_idempotent_witness :
    stop_listening (initState true) = initState true
    ∧ cleanup (cleanup (initState true)) = cleanup (initState true) :=
  ⟨C7_stop_cleanup_idempotent.1 (initState true) rfl,
   C7_stop_cleanup_idempotent.2 (initState true)⟩

/-- Claim C8: a second `start_listening` while already listening is a no-op
— it opens no additional capture stream and spawns no additional worker, so
after two consecutive calls exactly one stream was opened and one worker
spawned. -/
theorem C8_double_start (s : VRState)
    (hrec : s.hasRecognizer = true) (hidle : s.isListening = false)
    (hs0 : s.streamsOpened = 0) (hw0 : s.workersSpawned = 0) :
    (start_listening true (start_listening true s).1).1
      = (start_listening true s).1
    ∧ (start_listening true (start_listening true s).1).2
      = StartOutcome.alreadyListening
    ∧ (start_listening true s).1.streamsOpened = 1
    ∧ (start_listening true s).1.workersSpawned = 1
    ∧ (start_listening true s).1.streamOpen = true := by
  simp [start_listening, hrec, hidle, hs0, hw0]

/-- Witness for C8: two starts from a fresh object with a recognizer. -/
theorem C8_double_start_witness :
    (start_listening true (start_listening true (initState true)).1).1
      = (start_listening true (initState true)).1
    ∧ (start_listening true (initState true)).1.streamsOpened = 1 :=
  ⟨(C8_double_start (initState true) rfl rfl rfl rfl).1,
   (C8_double_start (initState true) rfl rfl rfl rfl).2.2.1⟩

/-- Claim C10: `start_listening` sets the listening flag before opening the
capture device and does not roll it back: if the device open raises, the
fault propagates while the object is left flagged as listening with no
stream opened and no worker spawned, and every subsequent `start_listening`
call returns immediately as a no-op. -/
theorem C10_no_rollback_on_device_fault (s : VRState)
    (hrec : s.hasRecognizer = true) (hidle : s.isListening = false) :
    (start_listening false s).2 = StartOutcome.deviceFault
    ∧ (start_listening false s).1.isListening = true
    ∧ (start_listening false s).1.streamOpen = s.streamOpen
    ∧ (start_listening false s).1.streamsOpened = s.streamsOpened
    ∧ (start_listening false s).1.workersSpawned = s.workersSpawned
    ∧ ∀ d, start_listening d (start_listening false s).1
        = ((start_listening false s).1, StartOutcome.alreadyListening) := by
  simp [start_listening, hrec, hidle]

/-- Witness for C10: a fresh object with a recognizer whose device open
fails. -/
theorem C10_no_rollback_on_device_fault_witness :
    (start_listening false (initState true)).2 = StartOutcome.deviceFault
    ∧ (start_listening false (initState true)).1.isListening = true :=
  ⟨(C10_no_rollback_on_device_fault (initState true) rfl rfl).1,
   (C10_no_rollback_on_device_fault (initState true) rfl rfl).2.1⟩

/-! ## Lemmas about file recognition -/

/-- Chunking loses no frames and keeps them in file order. -/
theorem chunkify_flatten (n : Nat) (l : List Nat) :
    (chunkify n l).flatten = l := by
  induction l using chunkify.induct n with
  | case1 => simp [chunkify]
  | case2 f fs ih =>
      simp only [chunkify, List.flatten_cons, List.cons_append]
      rw [ih, List.take_append_drop]

/-- Every chunk is non-empty and no longer than the buffer size. -/
theorem chunkify_mem_length (n : Nat) (l : List Nat) :
    ∀ c ∈ chunkify n l, c ≠ [] ∧ c.length ≤ max n 1 := by
  induction l using chunkify.induct n with
  | case1 => intro c hc; simp [chunkify] at hc
  | case2 f fs ih =>
      intro c hc
      simp only [chunkify] at hc
      rcases List.mem_cons.1 hc with rfl | hc'
      · refine ⟨by simp, ?_⟩
        have h1 : (fs.take (n - 1)).length ≤ n - 1 := List.length_take_le (n - 1) fs
        simp only [List.length_cons]
        omega
      · exact ih c hc'

/-- Every chunk except possibly the last is exactly one buffer long. -/
theorem chunkify_dropLast_length (n : Nat) (l : List Nat) :
    ∀ c ∈ (chunkify n l).dropLast, c.length = max n 1 := by
  induction l using chunkify.induct n with
  | case1 => intro c hc; simp [chunkify] at hc
  | case2 f fs ih =>
      intro c hc
      rw [chunkify] at hc
      cases hrest : chunkify n (fs.drop (n - 1)) with
      | nil => rw [hrest, List.dropLast_single] at hc; simp at hc
      | cons d ds =>
          rw [hrest, List.dropLast_cons₂] at hc
          rcases List.mem_cons.1 hc with rfl | hc'
          · have hne : fs.drop (n - 1) ≠ [] := by
              intro h0
              rw [h0] at hrest
              simp [chunkify] at hrest
            have hlen : n - 1 ≤ fs.length := by
              by_contra hlt
              push_neg at hlt
              exact hne (List.drop_eq_nil_of_le (le_of_lt hlt))
            simp only [List.length_cons, List.length_take]
            omega
          · have := ih c
            rw [hrest] at this
            exact this hc'

/-- The accumulator loop of `recognize_from_file` computes exactly the
spec-level list of Final texts, appended to the incoming accumulator. -/
theorem fileLoop_eq_finalTexts {σ : Type} (dm : DecoderModel σ)
    (cs : List (List Nat)) : ∀ (st : σ) (acc : List String),
    fileLoop dm cs st acc
      = (acc ++ (finalTexts dm cs st).1, (finalTexts dm cs st).2) := by
  induction cs with
  | nil => intro st acc; simp [fileLoop, finalTexts]
  | cons c cs ih =>
      intro st acc
      simp only [fileLoop, finalTexts]
      rcases hacc : dm.accept st c with ⟨b, st1⟩
      cases b
      · exact ih st1 acc
      · show fileLoop dm cs (dm.result st1).2
            (if (dm.result st1).1 = "" then acc else acc ++ [(dm.result st1).1])
          = (acc ++ (if (dm.result st1).1 = ""
                then (finalTexts dm cs (dm.result st1).2).1
                else (dm.result st1).1 :: (finalTexts dm cs (dm.result st1).2).1),
             (finalTexts dm cs (dm.result st1).2).2)
        rw [ih]
        by_cases ht : (dm.result st1).1 = "" <;> simp [ht]

/-- A 2-channel container (spec's format-mismatch scenario). -/
def twoChannelFile : WaveFile :=
  { nchannels := 2, sampwidth := 2, framerate := 16000, frames := [1, 2, 3] }

/-- Claim C5: with a recognizer available, `recognize_from_file` on a
container that is not mono, not 16-bit, or not at the configured sample rate
returns the empty string and records a `FormatError`; being a total function
of the parsed header it raises nothing. -/
theorem C5_format_mismatch {σ : Type} (dm : DecoderModel σ)
    (sample_rate buffer_size : Nat) (wf : WaveFile) (st : σ)
    (hfmt : wf.nchannels ≠ 1 ∨ wf.sampwidth ≠ 2 ∨ wf.framerate ≠ sample_rate) :
    recognize_from_file dm sample_rate buffer_size true wf st
      = ("", some ErrKind.formatError) := by
  simp [recognize_from_file, hfmt]

/-- Witness for C5: a 2-channel file yields the empty string and a recorded
`FormatError`. -/
theorem C5_format_mismatch_witness :
    recognize_from_file demoDecoder 16000 4000 true twoChannelFile 0
      = ("", some ErrKind.formatError) :=
  C5_format_mismatch demoDecoder 16000 4000 twoChannelFile 0
    (Or.inl (by decide))

/-- Claim C6: on a valid (mono, 16-bit, configured-rate) container,
`recognize_from_file` feeds buffer-sized chunks to the decoder in file order
(no frame lost or reordered, every chunk non-empty and at most one buffer
long, all but the last exactly one buffer long), collects the non-empty
Final texts of accepted chunks in order, appends the decoder's trailing
final text when non-empty, and returns exactly their space-joined
concatenation with no error recorded. -/
theorem C6_valid_file_streaming {σ : Type} (dm : DecoderModel σ)
    (sample_rate buffer_size : Nat) (wf : WaveFile) (st : σ)
    (hch : wf.nchannels = 1) (hsw : wf.sampwidth = 2)
    (hfr : wf.framerate = sample_rate) :
    (chunkify buffer_size wf.frames).flatten = wf.frames
    ∧ (∀ c ∈ chunkify buffer_size wf.frames,
        c ≠ [] ∧ c.length ≤ max buffer_size 1)
    ∧ (∀ c ∈ (chunkify buffer_size wf.frames).dropLast,
        c.length = max buffer_size 1)
    ∧ recognize_from_file dm sample_rate buffer_size true wf st
        = (joinSpace
            ((finalTexts dm (chunkify buffer_size wf.frames) st).1
              ++ (if (dm.finalResult
                    ((finalTexts dm (chunkify buffer_size wf.frames) st).2)).1 = ""
                  then []
                  else [(dm.finalResult
                    ((finalTexts dm (chunkify buffer_size wf.frames) st).2)).1])),
          none) := by
  refine ⟨chunkify_flatten _ _, chunkify_mem_length _ _,
    chunkify_dropLast_length _ _, ?_⟩
  have hfmt : ¬(wf.nchannels ≠ 1 ∨ wf.sampwidth ≠ 2
      ∨ wf.framerate ≠ sample_rate) := by
    simp [hch, hsw, hfr]
  simp only [recognize_from_file, Bool.not_true, Bool.false_eq_true,
    if_false, if_neg hfmt, fileLoop_eq_finalTexts, List.nil_append]
  rcases hfin : dm.finalResult
      ((finalTexts dm (chunkify buffer_size wf.frames) st).2) with ⟨ft, stf⟩
  simp only [hfin]
  by_cases ht : ft = "" <;> simp [ht]

/-- Witness for C6: the demo decoder over the demo file. -/
theorem C6_valid_file_streaming_witness :
    (chunkify 2 demoFile.frames).flatten = demoFile.frames
    ∧ recognize_from_file demoDecoder 16000 2 true demoFile 0
        = (joinSpace
            ((finalTexts demoDecoder (chunkify 2 demoFile.frames) 0).1
              ++ (if (demoDecoder.finalResult
                    ((finalTexts demoDecoder (chunkify 2 demoFile.frames) 0).2)).1 = ""
                  then []
                  else [(demoDecoder.finalResult
                    ((finalTexts demoDecoder (chunkify 2 demoFile.frames) 0).2)).1])),
          none) :=
  ⟨(C6_valid_file_streaming demoDecoder 16000 2 demoFile 0 rfl rfl rfl).1,
   (C6_valid_file_streaming demoDecoder 16000 2 demoFile 0 rfl rfl rfl).2.2.2⟩
